import Mathlib

/-!
# Verification of the PR-onboarding reconciliation engine

A shallow embedding, over `List Char` strings, of
`src/lib/features/pr-onboarding.ts`: the message-envelope codec built on
JavaScript `String.prototype.split`, the `dedent` template processing
(the dedent 0.7 algorithm), the checklist/label collaborators that the
file imports (modelled from the specification where their sources are not
part of this repository), and the event handler itself as a pure function
from an event description plus transport-failure oracles to the list of
attempted mutations and the final outcome.

JavaScript strings are modelled as `List Char`; `undefined` flowing out of
destructured `split` results is modelled with `Option`, and statements
that would throw (`TypeError` on property access of `undefined`) are
modelled as `Option`/error outcomes.
-/

/-- JavaScript strings, modelled as lists of characters. -/
abbrev Str := List Char

/-- Coerce a Lean string literal into the `Str` model. -/
def str (s : String) : Str := s.toList

/-- The ASCII part of JavaScript whitespace (`\s` in a regular expression and
`String.prototype.trim`): space, tab, line feed, carriage return, vertical
tab, form feed. -/
def isJsWs (c : Char) : Bool :=
  c = ' ' || c = '\t' || c = '\n' || c = '\r' || c = Char.ofNat 11 || c = Char.ofNat 12

/-! ## JavaScript `String.prototype.split`, leading pieces

`s.split(sep)` cuts `s` at every non-overlapping, leftmost-first occurrence
of `sep`.  The source only ever reads pieces `[0]` and `[1]` of the result,
so the embedding provides the split at the first occurrence and the two
leading pieces directly. -/

/-- Split at the first occurrence of `sep`: `some (before, after)` when `sep`
occurs in `s`, `none` otherwise. -/
def splitFirst (sep : Str) : Str → Option (Str × Str)
  | [] => none
  | c :: cs =>
    if sep.isPrefixOf (c :: cs) then some ([], (c :: cs).drop sep.length)
    else (splitFirst sep cs).map (fun p => (c :: p.1, p.2))

/-- Piece `[0]` of `s.split(sep)`: the text before the first occurrence of
`sep`, or all of `s` when `sep` does not occur. -/
def piece0 (sep s : Str) : Str :=
  match splitFirst sep s with
  | none => s
  | some (l, _) => l

/-- Piece `[1]` of `s.split(sep)`: the text between the first and the second
occurrence of `sep` (running to the end when there is no second occurrence),
and `undefined` (`none`) when `sep` does not occur at all. -/
def piece1 (sep s : Str) : Option Str :=
  match splitFirst sep s with
  | none => none
  | some (_, r) => some (piece0 sep r)

/-- `pat` occurs in `s` as a contiguous substring. -/
def occurs (pat s : Str) : Prop := ∃ l r, s = l ++ pat ++ r

/-- `pat` has a proper border: a non-empty string that is simultaneously a
proper prefix and suffix of `pat`.  A border-free pattern cannot have an
occurrence straddling a concatenation boundary with a full occurrence. -/
def properBorder (pat : Str) : Prop :=
  ∃ k, 0 < k ∧ k < pat.length ∧ pat.take k = pat.drop (pat.length - k)

instance properBorderDec (pat : Str) : Decidable (properBorder pat) :=
  decidable_of_iff (∃ k ∈ List.range pat.length, 0 < k ∧ pat.take k = pat.drop (pat.length - k))
    (by
      constructor
      · rintro ⟨k, hk, h0, he⟩
        exact ⟨k, h0, List.mem_range.mp hk, he⟩
      · rintro ⟨k, h0, hk, he⟩
        exact ⟨k, List.mem_range.mpr hk, h0, he⟩)

theorem splitFirst_eq_some {sep s l r : Str} (h : splitFirst sep s = some (l, r)) :
    s = l ++ sep ++ r := by
  induction s generalizing l r with
  | nil => simp [splitFirst] at h
  | cons c cs ih =>
    rw [splitFirst] at h
    by_cases hpre : sep.isPrefixOf (c :: cs)
    · rw [if_pos hpre] at h
      simp only [Option.some.injEq, Prod.mk.injEq] at h
      obtain ⟨rfl, rfl⟩ := h
      obtain ⟨t, ht⟩ := List.isPrefixOf_iff_prefix.mp hpre
      rw [← ht, List.drop_left]
      simp
    · rw [if_neg hpre, Option.map_eq_some'] at h
      obtain ⟨⟨l', r'⟩, hsp, hf⟩ := h
      simp only [Prod.mk.injEq] at hf
      obtain ⟨rfl, rfl⟩ := hf
      simp [ih hsp]

theorem splitFirst_isSome_of_occurs {sep s : Str} (hsep : sep ≠ []) (hocc : occurs sep s) :
    (splitFirst sep s).isSome := by
  obtain ⟨l, r, rfl⟩ := hocc
  induction l with
  | nil =>
    obtain ⟨c, sep', rfl⟩ := List.exists_cons_of_ne_nil hsep
    rw [List.nil_append, List.cons_append, splitFirst]
    rw [if_pos (List.isPrefixOf_iff_prefix.mpr ⟨r, by simp⟩)]
    simp
  | cons a l ih =>
    rw [List.cons_append, List.cons_append, splitFirst]
    by_cases hpre : sep.isPrefixOf (a :: (l ++ sep ++ r))
    · rw [if_pos hpre]; simp
    · rw [if_neg hpre]
      simpa using ih

theorem splitFirst_eq_none_iff {sep s : Str} (hsep : sep ≠ []) :
    splitFirst sep s = none ↔ ¬ occurs sep s := by
  constructor
  · intro h hocc
    have hs := splitFirst_isSome_of_occurs hsep hocc
    rw [h] at hs
    simp at hs
  · intro h
    cases hs : splitFirst sep s with
    | none => rfl
    | some p => exact absurd ⟨p.1, p.2, splitFirst_eq_some (by rw [hs])⟩ h

instance occursDec (pat s : Str) : Decidable (occurs pat s) :=
  decidable_of_iff (pat = [] ∨ (splitFirst pat s).isSome)
    (by
      constructor
      · rintro (rfl | hs)
        · exact ⟨[], s, rfl⟩
        · rw [Option.isSome_iff_exists] at hs
          obtain ⟨⟨l, r⟩, hp⟩ := hs
          exact ⟨l, r, splitFirst_eq_some hp⟩
      · intro hocc
        by_cases hp : pat = []
        · exact Or.inl hp
        · exact Or.inr (splitFirst_isSome_of_occurs hp hocc))

/-- If `sep` is border-free and does not occur in `A`, its first occurrence in
`A ++ sep ++ R` is exactly the embedded one. -/
theorem splitFirst_emergence {sep : Str} (A R : Str) (hsep : sep ≠ [])
    (hb : ¬ properBorder sep) (hA : ¬ occurs sep A) :
    splitFirst sep (A ++ sep ++ R) = some (A, R) := by
  induction A with
  | nil =>
    obtain ⟨c, sep', rfl⟩ := List.exists_cons_of_ne_nil hsep
    rw [List.nil_append, List.cons_append, splitFirst]
    rw [if_pos (List.isPrefixOf_iff_prefix.mpr ⟨R, by simp⟩)]
    rw [← List.cons_append, List.drop_left]
  | cons a A' ih =>
    have hA' : ¬ occurs sep A' := by
      intro ⟨l, r, hlr⟩
      exact hA ⟨a :: l, r, by simp [hlr]⟩
    have hkey : ¬ sep.isPrefixOf (a :: (A' ++ sep ++ R)) := by
      intro hpre
      obtain ⟨t, ht⟩ := List.isPrefixOf_iff_prefix.mp hpre
      rcases le_or_lt sep.length (a :: A').length with hLn | hnL
      · -- sep would be a prefix of a :: A', hence occur in it
        apply hA
        have htk : ((a :: A') ++ (sep ++ R)).take sep.length = (a :: A').take sep.length :=
          List.take_append_of_le_length hLn
        have hsep_eq : (sep ++ t).take sep.length = sep := by
          simp [List.take_left]
        rw [show a :: (A' ++ sep ++ R) = (a :: A') ++ (sep ++ R) by simp] at ht
        rw [ht] at hsep_eq
        rw [htk] at hsep_eq
        obtain ⟨u, hu⟩ := (List.take_prefix sep.length (a :: A'))
        exact ⟨[], u, by rw [← hu, hsep_eq]; simp⟩
      · -- an occurrence overlapping the embedded copy forces a border
        exfalso
        apply hb
        set n := (a :: A').length with hn
        have hn1 : 0 < n := by simp [hn]
        refine ⟨sep.length - n, by omega, by omega, ?_⟩
        have hdrop : sep.drop n ++ t = sep ++ R := by
          have hc := congrArg (List.drop n) ht
          rw [List.drop_append_eq_append_drop, Nat.sub_eq_zero_of_le (le_of_lt hnL),
            List.drop_zero] at hc
          rw [show a :: (A' ++ sep ++ R) = (a :: A') ++ (sep ++ R) by simp] at hc
          rw [List.drop_left] at hc
          exact hc
        have htake := congrArg (List.take (sep.length - n)) hdrop
        rw [List.take_append_eq_append_take, List.take_append_eq_append_take] at htake
        have hld : (sep.drop n).length = sep.length - n := by simp
        rw [hld, Nat.sub_self, List.take_zero, List.append_nil] at htake
        rw [show sep.length - n - sep.length = 0 by omega, List.take_zero,
          List.append_nil] at htake
        rw [show sep.length - (sep.length - n) = n by omega]
        rw [← htake]
        exact List.take_of_length_le (le_of_eq hld)
    rw [List.cons_append, List.cons_append, splitFirst, if_neg hkey]
    have hA'' : splitFirst sep A' = none := (splitFirst_eq_none_iff hsep).mpr hA'
    rw [ih hA']
    rfl

theorem piece0_of_not_occurs {sep s : Str} (hsep : sep ≠ []) (h : ¬ occurs sep s) :
    piece0 sep s = s := by
  rw [piece0, (splitFirst_eq_none_iff hsep).mpr h]

theorem piece0_emergence {sep : Str} (A R : Str) (hsep : sep ≠ [])
    (hb : ¬ properBorder sep) (hA : ¬ occurs sep A) :
    piece0 sep (A ++ sep ++ R) = A := by
  rw [piece0, splitFirst_emergence A R hsep hb hA]

theorem piece1_emergence {sep : Str} (A R : Str) (hsep : sep ≠ [])
    (hb : ¬ properBorder sep) (hA : ¬ occurs sep A) :
    piece1 sep (A ++ sep ++ R) = some (piece0 sep R) := by
  rw [piece1, splitFirst_emergence A R hsep hb hA]

/-! ## The dedent 0.7 algorithm

`dedent` (the npm package, version 0.7) assembles the template, splits it
into lines, finds the minimal indentation among lines that start with
whitespace followed by a non-whitespace character, strips that many leading
characters from every line whose first character is a space, joins the
lines back, trims the result, and finally rewrites literal `\n` escapes.
The raw-piece escape handling (escaped newlines and backticks) is vacuous
for the templates in this file, which contain neither. -/

/-- JavaScript `String.prototype.split` with a single-character separator. -/
def splitAllChar (sep : Char) : Str → List Str
  | [] => [[]]
  | c :: cs =>
    if c = sep then [] :: splitAllChar sep cs
    else
      match splitAllChar sep cs with
      | [] => [[c]]
      | l :: ls => (c :: l) :: ls

/-- The lines of a string (split at every line feed). -/
def linesOf : Str → List Str := splitAllChar '\n'

/-- `Array.prototype.join("\n")` over a list of lines. -/
def joinLines : List Str → Str
  | [] => []
  | [l] => l
  | l :: ls => l ++ '\n' :: joinLines ls

/-- The indentation a line contributes to dedent's scan: the length of its
leading whitespace run, provided the run is non-empty and is followed by a
non-whitespace character (the regex `^(\s+)\S+`). -/
def lineIndent (l : Str) : Option Nat :=
  let ws := l.takeWhile (fun c => isJsWs c)
  let rest := l.dropWhile (fun c => isJsWs c)
  if 0 < ws.length ∧ rest ≠ [] then some ws.length else none

/-- One step of dedent's minimal-indentation scan.  (In the source
`if (!mindent)` tests truthiness, but a contributed indent is always at
least 1, so the accumulator is never `0` and the test coincides with the
`null` check.) -/
def mindentStep (acc : Option Nat) (l : Str) : Option Nat :=
  match lineIndent l with
  | none => acc
  | some i =>
    match acc with
    | none => some i
    | some m => some (min m i)

/-- Dedent's minimal-indentation scan over all lines. -/
def mindentOf (ls : List Str) : Option Nat :=
  ls.foldl mindentStep none

/-- `l[0] === " " ? l.substring(n) : l`. -/
def sliceLine (n : Nat) (l : Str) : Str :=
  if l.head? = some ' ' then l.drop n else l

/-- `String.prototype.trim`, left part. -/
def jsTrimLeft (s : Str) : Str := s.dropWhile (fun c => isJsWs c)

/-- `String.prototype.trim`, right part. -/
def jsTrimRight (s : Str) : Str := (jsTrimLeft s.reverse).reverse

/-- `String.prototype.trim`. -/
def jsTrim (s : Str) : Str := jsTrimRight (jsTrimLeft s)

/-- `String.prototype.replace` with a global pattern: rewrite every
non-overlapping, leftmost-first occurrence of `pat` to `rep`. -/
def replaceAllAux (pat rep : Str) : Nat → Str → Str
  | 0, s => s
  | fuel + 1, s =>
    match splitFirst pat s with
    | none => s
    | some (l, r) => l ++ rep ++ replaceAllAux pat rep fuel r

/-- `s.replace(pat-as-global-regex, rep)` for a literal pattern. -/
def replaceAll (pat rep s : Str) : Str := replaceAllAux pat rep s.length s

/-- The dedent 0.7 pipeline on the assembled template string. -/
def dedent (s : Str) : Str :=
  let ls := linesOf s
  let body :=
    match mindentOf ls with
    | none => s
    | some m => joinLines (ls.map (sliceLine m))
  replaceAll (str "\\n") (str "\n") (jsTrim body)

theorem splitAllChar_ne_nil (sep : Char) (s : Str) : splitAllChar sep s ≠ [] := by
  cases s with
  | nil => simp [splitAllChar]
  | cons c cs =>
    rw [splitAllChar]
    split
    · simp
    · split <;> simp

theorem linesOf_ne_nil (s : Str) : linesOf s ≠ [] := splitAllChar_ne_nil '\n' s

theorem joinLines_cons_of_ne_nil (l : Str) (ls : List Str) (h : ls ≠ []) :
    joinLines (l :: ls) = l ++ '\n' :: joinLines ls := by
  cases ls with
  | nil => exact absurd rfl h
  | cons a as => rfl

theorem joinLines_linesOf (s : Str) : joinLines (linesOf s) = s := by
  induction s with
  | nil => rfl
  | cons c cs ih =>
    by_cases hc : c = '\n'
    · subst hc
      have h1 : linesOf ('\n' :: cs) = [] :: linesOf cs := by
        rw [linesOf, splitAllChar, if_pos rfl]
      rw [h1, joinLines_cons_of_ne_nil _ _ (linesOf_ne_nil cs), ih]
      rfl
    · obtain ⟨l, ls, hls⟩ := List.exists_cons_of_ne_nil (linesOf_ne_nil cs)
      have h1 : linesOf (c :: cs) = (c :: l) :: ls := by
        rw [linesOf, splitAllChar, if_neg hc]
        rw [show splitAllChar '\n' cs = linesOf cs from rfl, hls]
      rw [h1]
      rw [hls] at ih
      cases ls with
      | nil =>
        have hl : l = cs := ih
        simp [joinLines, hl]
      | cons l2 ls2 =>
        rw [joinLines_cons_of_ne_nil _ _ (by simp)]
        rw [joinLines_cons_of_ne_nil _ _ (by simp)] at ih
        rw [List.cons_append, ih]

theorem linesOf_cons_newline (b : Str) : linesOf ('\n' :: b) = [] :: linesOf b := by
  rw [linesOf, splitAllChar, if_pos rfl]

theorem linesOf_cons_not_newline (c : Char) (cs : Str) (hc : c ≠ '\n') (l : Str)
    (ls : List Str) (hls : linesOf cs = l :: ls) : linesOf (c :: cs) = (c :: l) :: ls := by
  rw [linesOf, splitAllChar, if_neg hc, show splitAllChar '\n' cs = linesOf cs from rfl, hls]

theorem linesOf_append_newline (a b : Str) :
    linesOf (a ++ '\n' :: b) = linesOf a ++ linesOf b := by
  induction a with
  | nil => rw [List.nil_append, linesOf_cons_newline]; rfl
  | cons c a' ih =>
    by_cases hc : c = '\n'
    · subst hc
      rw [List.cons_append, linesOf_cons_newline, linesOf_cons_newline, ih]
      rfl
    · obtain ⟨l, ls, hls⟩ := List.exists_cons_of_ne_nil (linesOf_ne_nil a')
      have h2 := linesOf_cons_not_newline c a' hc l ls hls
      have h3 : linesOf (a' ++ '\n' :: b) = l :: (ls ++ linesOf b) := by
        rw [ih, hls]; rfl
      rw [List.cons_append, linesOf_cons_not_newline c _ hc l (ls ++ linesOf b) h3, h2]
      rfl

theorem linesOf_no_newline (a : Str) (h : '\n' ∉ a) : linesOf a = [a] := by
  induction a with
  | nil => rfl
  | cons c a' ih =>
    have hc : c ≠ '\n' := fun hh => h (by simp [hh])
    have h' : '\n' ∉ a' := fun hh => h (List.mem_cons_of_mem _ hh)
    exact linesOf_cons_not_newline c a' hc a' [] (ih h')

theorem linesOf_append_of_no_newline (p s : Str) (h : '\n' ∉ p) :
    linesOf (p ++ s) = (p ++ (linesOf s).headI) :: (linesOf s).tail := by
  induction p with
  | nil =>
    obtain ⟨l, ls, hls⟩ := List.exists_cons_of_ne_nil (linesOf_ne_nil s)
    simp [hls]
  | cons c p' ih =>
    have hc : c ≠ '\n' := fun hh => h (by simp [hh])
    have h' : '\n' ∉ p' := fun hh => h (List.mem_cons_of_mem _ hh)
    rw [List.cons_append, linesOf_cons_not_newline c _ hc _ _ (ih h')]
    rfl

theorem joinLines_append (xs ys : List Str) (hxs : xs ≠ []) (hys : ys ≠ []) :
    joinLines (xs ++ ys) = joinLines xs ++ '\n' :: joinLines ys := by
  induction xs with
  | nil => exact absurd rfl hxs
  | cons x xs' ih =>
    cases xs' with
    | nil =>
      rw [List.cons_append, List.nil_append, joinLines_cons_of_ne_nil _ _ hys]
      rfl
    | cons x2 xs2 =>
      rw [List.cons_append, joinLines_cons_of_ne_nil _ _ (by simp),
        joinLines_cons_of_ne_nil _ _ (by simp), ih (by simp)]
      simp

theorem jsTrimLeft_cons_ws (c : Char) (s : Str) (h : isJsWs c = true) :
    jsTrimLeft (c :: s) = jsTrimLeft s := by
  simp [jsTrimLeft, List.dropWhile_cons, h]

theorem jsTrimLeft_of_head_not_ws (s : Str) (hne : s ≠ []) (h : isJsWs s.headI = false) :
    jsTrimLeft s = s := by
  cases s with
  | nil => rfl
  | cons c cs =>
    simp only [List.headI] at h
    simp [jsTrimLeft, List.dropWhile_cons, h]

theorem jsTrimRight_append_ws (s : Str) (c : Char) (h : isJsWs c = true) :
    jsTrimRight (s ++ [c]) = jsTrimRight s := by
  simp [jsTrimRight, jsTrimLeft, List.dropWhile_cons, h]

theorem jsTrimRight_of_getLast_not_ws (s : Str) (hne : s ≠ [])
    (h : isJsWs s.getLastI = false) : jsTrimRight s = s := by
  obtain ⟨c, cs, hc⟩ := List.exists_cons_of_ne_nil (show s.reverse ≠ [] by simpa using hne)
  have hlast : s.getLast? = some c := by rw [← List.head?_reverse, hc]; rfl
  have hcw : isJsWs c = false := by
    rw [List.getLastI_eq_getLast?, hlast] at h
    simpa using h
  rw [jsTrimRight, jsTrimLeft, hc, List.dropWhile_cons]
  simp only [hcw, Bool.false_eq_true, if_false, reduceIte]
  rw [← hc, List.reverse_reverse]

theorem replaceAllAux_of_none (pat rep : Str) (fuel : Nat) (s : Str)
    (h : splitFirst pat s = none) : replaceAllAux pat rep fuel s = s := by
  cases fuel with
  | zero => rfl
  | succ f => rw [replaceAllAux, h]

theorem replaceAll_of_no_backslash (rep s : Str) (h : '\\' ∉ s) :
    replaceAll (str "\\n") rep s = s := by
  apply replaceAllAux_of_none
  rw [splitFirst_eq_none_iff (by decide)]
  rintro ⟨l, r, hs⟩
  apply h
  rw [hs, show str "\\n" = ['\\', 'n'] from rfl]
  simp

/-- A run of spaces. -/
def spaces (n : Nat) : Str := List.replicate n ' '

theorem spaces_succ_append (m : Nat) (x : Str) :
    spaces (m + 1) ++ x = ' ' :: (spaces m ++ x) := by
  simp [spaces, List.replicate_succ]

theorem takeWhile_spaces_append (n : Nat) (x : Str) :
    (spaces n ++ x).takeWhile (fun c => isJsWs c) = spaces n ++ x.takeWhile (fun c => isJsWs c) := by
  induction n with
  | zero => rfl
  | succ m ih =>
    rw [spaces_succ_append, List.takeWhile_cons, if_pos (by decide : isJsWs ' ' = true), ih]
    simp [spaces, List.replicate_succ]

theorem dropWhile_spaces_append (n : Nat) (x : Str) :
    (spaces n ++ x).dropWhile (fun c => isJsWs c) = x.dropWhile (fun c => isJsWs c) := by
  induction n with
  | zero => rfl
  | succ m ih =>
    rw [spaces_succ_append, List.dropWhile_cons, if_pos (by decide : isJsWs ' ' = true), ih]

theorem lineIndent_of_head_not_ws (l : Str) (h : l = [] ∨ isJsWs l.headI = false) :
    lineIndent l = none := by
  rcases h with rfl | h
  · rfl
  · cases l with
    | nil => rfl
    | cons c cs =>
      simp only [List.headI] at h
      simp [lineIndent, List.takeWhile_cons, h]

theorem lineIndent_spaces (n : Nat) : lineIndent (spaces n) = none := by
  have h1 := takeWhile_spaces_append n []
  have h2 := dropWhile_spaces_append n []
  simp only [List.append_nil] at h1 h2
  simp [lineIndent, h1, h2]

theorem lineIndent_spaces_append (n : Nat) (x : Str) (hn : 0 < n) (hx : x ≠ [])
    (hxh : isJsWs x.headI = false) : lineIndent (spaces n ++ x) = some n := by
  obtain ⟨c, cs, rfl⟩ := List.exists_cons_of_ne_nil hx
  simp only [List.headI] at hxh
  rw [lineIndent]
  rw [takeWhile_spaces_append, dropWhile_spaces_append]
  rw [List.takeWhile_cons, List.dropWhile_cons]
  simp only [hxh, Bool.false_eq_true, if_false, reduceIte, List.append_nil]
  rw [if_pos]
  · simp [spaces]
  · constructor
    · simpa [spaces] using hn
    · simp

theorem sliceLine_of_head_not_ws (n : Nat) (l : Str) (h : l = [] ∨ isJsWs l.headI = false) :
    sliceLine n l = l := by
  rcases h with rfl | h
  · rfl
  · cases l with
    | nil => rfl
    | cons c cs =>
      simp only [List.headI] at h
      have hc : c ≠ ' ' := by rintro rfl; simp [isJsWs] at h
      rw [sliceLine, if_neg]
      simp [hc]

theorem sliceLine_six_append (x : Str) : sliceLine 6 (spaces 6 ++ x) = x := by
  rw [sliceLine, if_pos (by rfl)]
  have h := List.drop_left (spaces 6) x
  rw [show (spaces 6).length = 6 from rfl] at h
  exact h

theorem mindentFold_all_none (ls : List Str) (acc : Option Nat)
    (h : ∀ l ∈ ls, lineIndent l = none) : ls.foldl mindentStep acc = acc := by
  induction ls generalizing acc with
  | nil => rfl
  | cons l ls' ih =>
    rw [List.foldl_cons, show mindentStep acc l = acc from by
      rw [mindentStep, h l (by simp)]]
    exact ih acc (fun l' hl' => h l' (by simp [hl']))

theorem mindentFold_none_or_six (ls : List Str)
    (h : ∀ l ∈ ls, lineIndent l = none ∨ lineIndent l = some 6) :
    ls.foldl mindentStep (some 6) = some 6 := by
  induction ls with
  | nil => rfl
  | cons l ls' ih =>
    rw [List.foldl_cons]
    have hstep : mindentStep (some 6) l = some 6 := by
      rcases h l (by simp) with hl | hl <;> simp [mindentStep, hl]
    rw [hstep]
    exact ih (fun l' hl' => h l' (by simp [hl']))

theorem map_sliceLine_id (n : Nat) (ls : List Str)
    (h : ∀ l ∈ ls, l = [] ∨ isJsWs l.headI = false) : ls.map (sliceLine n) = ls := by
  induction ls with
  | nil => rfl
  | cons a as ih =>
    rw [List.map_cons, sliceLine_of_head_not_ws n a (h a (by simp)),
      ih (fun x hx => h x (by simp [hx]))]

theorem getLastI_append_of_ne_nil (x w : Str) (hw : w ≠ []) :
    (x ++ w).getLastI = w.getLastI := by
  rw [List.getLastI_eq_getLast?, List.getLastI_eq_getLast?,
    List.getLast?_append_of_ne_nil x hw]

/-- The template-assembly fact behind the `opened` path: when neither the
existing body nor the wrapped envelope has a line starting with whitespace,
the body's first character and the envelope's last character are
non-whitespace, and neither contains a backslash, the dedent of the
`opened`-path template is exactly `body ++ "\n\n" ++ envelope`. -/
theorem dedent_glue (b w : Str) (hb0 : b ≠ []) (hbh : isJsWs b.headI = false)
    (hbl : ∀ l ∈ linesOf b, l = [] ∨ isJsWs l.headI = false)
    (hwl : ∀ l ∈ linesOf w, l = [] ∨ isJsWs l.headI = false)
    (hw0 : w ≠ []) (hwe : isJsWs w.getLastI = false)
    (hbs : '\\' ∉ b) (hws : '\\' ∉ w) :
    dedent ('\n' :: (spaces 6 ++ (b ++ '\n' :: (spaces 6 ++ '\n' ::
        (spaces 6 ++ (w ++ '\n' :: spaces 4))))))
      = b ++ '\n' :: '\n' :: w := by
  obtain ⟨c, b', rfl⟩ := List.exists_cons_of_ne_nil hb0
  simp only [List.headI] at hbh
  have hcn : c ≠ '\n' := by rintro rfl; simp [isJsWs] at hbh
  obtain ⟨l, ls, hls⟩ := List.exists_cons_of_ne_nil (linesOf_ne_nil b')
  have hlb : linesOf (c :: b') = (c :: l) :: ls := linesOf_cons_not_newline c b' hcn l ls hls
  obtain ⟨wf, wRest, hlw⟩ := List.exists_cons_of_ne_nil (linesOf_ne_nil w)
  -- the lines of the assembled template
  have hw_lines : linesOf (w ++ '\n' :: spaces 4) = wf :: (wRest ++ [spaces 4]) := by
    rw [linesOf_append_newline, hlw, linesOf_no_newline (spaces 4) (by decide)]
    rfl
  have hrest2 : linesOf (spaces 6 ++ (w ++ '\n' :: spaces 4))
      = (spaces 6 ++ wf) :: (wRest ++ [spaces 4]) := by
    rw [linesOf_append_of_no_newline _ _ (by decide), hw_lines]
    rfl
  have hrest1 : linesOf (spaces 6 ++ '\n' :: (spaces 6 ++ (w ++ '\n' :: spaces 4)))
      = spaces 6 :: (spaces 6 ++ wf) :: (wRest ++ [spaces 4]) := by
    rw [linesOf_append_newline, linesOf_no_newline (spaces 6) (by decide), hrest2]
    rfl
  have hb_lines : linesOf ((c :: b') ++ '\n' :: (spaces 6 ++ '\n' ::
      (spaces 6 ++ (w ++ '\n' :: spaces 4))))
      = (c :: l) :: (ls ++ spaces 6 :: (spaces 6 ++ wf) :: (wRest ++ [spaces 4])) := by
    rw [linesOf_append_newline, hlb, hrest1]
    rfl
  have hfull : linesOf (spaces 6 ++ ((c :: b') ++ '\n' :: (spaces 6 ++ '\n' ::
      (spaces 6 ++ (w ++ '\n' :: spaces 4)))))
      = (spaces 6 ++ (c :: l)) ::
        (ls ++ spaces 6 :: (spaces 6 ++ wf) :: (wRest ++ [spaces 4])) := by
    rw [linesOf_append_of_no_newline _ _ (by decide), hb_lines]
    rfl
  have hL : linesOf ('\n' :: (spaces 6 ++ ((c :: b') ++ '\n' :: (spaces 6 ++ '\n' ::
      (spaces 6 ++ (w ++ '\n' :: spaces 4))))))
      = [] :: (spaces 6 ++ (c :: l)) ::
        (ls ++ spaces 6 :: (spaces 6 ++ wf) :: (wRest ++ [spaces 4])) := by
    rw [linesOf_cons_newline, hfull]
  -- the minimal indentation is exactly 6
  have hls_sub : ∀ x ∈ ls, x = [] ∨ isJsWs x.headI = false := by
    intro x hx
    exact hbl x (by rw [hlb]; exact List.mem_cons_of_mem _ hx)
  have hwRest_sub : ∀ x ∈ wRest, x = [] ∨ isJsWs x.headI = false := by
    intro x hx
    exact hwl x (by rw [hlw]; exact List.mem_cons_of_mem _ hx)
  have hwf_mem : wf = [] ∨ isJsWs wf.headI = false := hwl wf (by rw [hlw]; simp)
  have hmin : mindentOf ([] :: (spaces 6 ++ (c :: l)) ::
      (ls ++ spaces 6 :: (spaces 6 ++ wf) :: (wRest ++ [spaces 4]))) = some 6 := by
    rw [mindentOf, List.foldl_cons, List.foldl_cons]
    rw [show mindentStep none [] = none from rfl]
    rw [show mindentStep none (spaces 6 ++ (c :: l)) = some 6 from by
      rw [mindentStep, lineIndent_spaces_append 6 (c :: l) (by decide) (by simp)
        (by simpa using hbh)]]
    apply mindentFold_none_or_six
    intro ln hln
    rcases List.mem_append.mp hln with h1 | h1
    · exact Or.inl (lineIndent_of_head_not_ws ln (hls_sub ln h1))
    · rcases List.mem_cons.mp h1 with rfl | h2
      · exact Or.inl (lineIndent_spaces 6)
      · rcases List.mem_cons.mp h2 with rfl | h3
        · cases wf with
          | nil => exact Or.inl (by rw [List.append_nil]; exact lineIndent_spaces 6)
          | cons d wf2 =>
            rcases hwf_mem with h0 | hwfh
            · exact absurd h0 (by simp)
            · exact Or.inr (lineIndent_spaces_append 6 (d :: wf2) (by decide) (by simp) hwfh)
        · rcases List.mem_append.mp h3 with h4 | h4
          · exact Or.inl (lineIndent_of_head_not_ws ln (hwRest_sub ln h4))
          · rcases List.mem_singleton.mp h4 with rfl
            exact Or.inl (lineIndent_spaces 4)
  -- slicing six characters restores the body and envelope lines
  have hmap : ([] :: (spaces 6 ++ (c :: l)) ::
      (ls ++ spaces 6 :: (spaces 6 ++ wf) :: (wRest ++ [spaces 4]))).map (sliceLine 6)
      = [] :: (c :: l) :: (ls ++ [] :: wf :: (wRest ++ [[]])) := by
    rw [List.map_cons, List.map_cons, List.map_append, List.map_cons, List.map_cons,
      List.map_append]
    rw [show sliceLine 6 ([] : Str) = [] from rfl]
    rw [sliceLine_six_append (c :: l)]
    rw [map_sliceLine_id 6 ls hls_sub]
    rw [show sliceLine 6 (spaces 6) = [] from by decide]
    rw [sliceLine_six_append wf]
    rw [map_sliceLine_id 6 wRest hwRest_sub]
    rw [show List.map (sliceLine 6) [spaces 4] = [[]] from by decide]
  -- joining the sliced lines
  have hjoin : joinLines ([] :: (c :: l) :: (ls ++ [] :: wf :: (wRest ++ [[]])))
      = '\n' :: ((c :: b') ++ '\n' :: '\n' :: (w ++ ['\n'])) := by
    have h1 : joinLines ([] :: (c :: l) :: (ls ++ [] :: wf :: (wRest ++ [[]])))
        = [] ++ '\n' :: joinLines ((c :: l) :: (ls ++ [] :: wf :: (wRest ++ [[]]))) :=
      joinLines_cons_of_ne_nil _ _ (by simp)
    have h2 : (c :: l) :: (ls ++ [] :: wf :: (wRest ++ [[]]))
        = ((c :: l) :: ls) ++ ([] :: ((wf :: wRest) ++ [[]])) := by simp
    have h3 : joinLines (((c :: l) :: ls) ++ ([] :: ((wf :: wRest) ++ [[]])))
        = joinLines ((c :: l) :: ls) ++ '\n' :: joinLines ([] :: ((wf :: wRest) ++ [[]])) :=
      joinLines_append _ _ (by simp) (by simp)
    have h4 : joinLines ([] :: ((wf :: wRest) ++ [[]]))
        = [] ++ '\n' :: joinLines ((wf :: wRest) ++ [[]]) :=
      joinLines_cons_of_ne_nil _ _ (by simp)
    have h5 : joinLines ((wf :: wRest) ++ [[]])
        = joinLines (wf :: wRest) ++ '\n' :: joinLines [[]] :=
      joinLines_append _ _ (by simp) (by simp)
    have hb2 : joinLines ((c :: l) :: ls) = c :: b' := by rw [← hlb, joinLines_linesOf]
    have hw2 : joinLines (wf :: wRest) = w := by rw [← hlw, joinLines_linesOf]
    rw [h1, h2, h3, h4, h5, hb2, hw2]
    simp [joinLines]
  -- trimming
  have htrim : jsTrim ('\n' :: ((c :: b') ++ '\n' :: '\n' :: (w ++ ['\n'])))
      = (c :: b') ++ '\n' :: '\n' :: w := by
    rw [jsTrim, jsTrimLeft_cons_ws '\n' _ (by decide)]
    rw [jsTrimLeft_of_head_not_ws _ (by simp) (by simpa using hbh)]
    have hassoc : (c :: b') ++ '\n' :: '\n' :: (w ++ ['\n'])
        = ((c :: b') ++ '\n' :: '\n' :: w) ++ ['\n'] := by simp
    rw [hassoc, jsTrimRight_append_ws _ '\n' (by decide)]
    apply jsTrimRight_of_getLast_not_ws _ (by simp)
    rw [show (c :: b') ++ '\n' :: '\n' :: w = ((c :: b') ++ ['\n', '\n']) ++ w by simp]
    rw [getLastI_append_of_ne_nil _ w hw0]
    exact hwe
  -- no backslash survives to the final replace
  have hnb : '\\' ∉ (c :: b') ++ '\n' :: '\n' :: w := by
    intro hmem
    rcases List.mem_append.mp hmem with h1 | h1
    · exact hbs h1
    · rcases List.mem_cons.mp h1 with h2 | h2
      · exact absurd h2 (by decide)
      · rcases List.mem_cons.mp h2 with h3 | h3
        · exact absurd h3 (by decide)
        · exact hws h3
  have hsel : (match mindentOf (linesOf ('\n' :: (spaces 6 ++ ((c :: b') ++ '\n' ::
        (spaces 6 ++ '\n' :: (spaces 6 ++ (w ++ '\n' :: spaces 4))))))) with
      | none => ('\n' :: (spaces 6 ++ ((c :: b') ++ '\n' :: (spaces 6 ++ '\n' ::
          (spaces 6 ++ (w ++ '\n' :: spaces 4))))))
      | some m => joinLines ((linesOf ('\n' :: (spaces 6 ++ ((c :: b') ++ '\n' ::
          (spaces 6 ++ '\n' :: (spaces 6 ++ (w ++ '\n' :: spaces 4))))))).map (sliceLine m)))
      = joinLines (([] :: (spaces 6 ++ (c :: l)) ::
          (ls ++ spaces 6 :: (spaces 6 ++ wf) :: (wRest ++ [spaces 4]))).map (sliceLine 6)) := by
    rw [hL, hmin]
  rw [dedent]
  rw [hsel, hmap, hjoin, htrim]
  exact replaceAll_of_no_backslash _ _ hnb

/-! ## Modelled collaborator modules

The repository ships only `src/lib/features/pr-onboarding.ts`; the modules
it imports (`../models/checklist`, `../models/label`, `../models/config`,
`../utils/hash`, `../utils/markdown`) are not part of the sources.  They
are modelled here from the specification (sections 3, 4.1, 4.2, 6 and the
glossary), with a doc comment marking each modelled definition. -/

/-- Modelled from the spec: the stable fingerprint from `utils/hash`
(called `hash` in the source; renamed here because `hash` is taken by
`Hashable`): "a stable fingerprint derived from the underlying label's
canonical name".  Only stability and injectivity on names matter, so it is
modelled as the identity embedding of the canonical name. -/
def hashName (s : Str) : Str := s

/-- Modelled from the spec: markdown helper `sub` from `utils/markdown`
(out of scope, "markdown rendering helpers"). -/
def sub (s : Str) : Str := str "<sub>" ++ s ++ str "</sub>"

/-- Modelled from the spec: markdown helper `bold` from `utils/markdown`. -/
def bold (s : Str) : Str := str "**" ++ s ++ str "**"

/-- Modelled from the spec: markdown helper `italics` from `utils/markdown`. -/
def italics (s : Str) : Str := str "_" ++ s ++ str "_"

/-- A checklist item: stable id, checked flag, rendered body
(spec section 3, `ChecklistItem`). -/
structure ChecklistItem where
  id : Str
  checked : Bool
  body : Str
deriving DecidableEq

/-- A checklist: its key (the source stores the key in the `id` field of the
parsed object) and its ordered items (spec section 3, `Checklist`). -/
structure Checklist where
  id : Str
  items : List ChecklistItem
deriving DecidableEq

/-- Modelled from the spec: `moreThanOneChecked(items) -> boolean` from
`models/checklist`, "used to surface a soft warning ... when a
mutually-exclusive group has multiple boxes ticked". -/
def moreThanOneItemChecked (items : List ChecklistItem) : Bool :=
  1 < (items.filter (fun it => it.checked)).length

/-- Modelled from the spec: one rendered selectable line of
`createChecklist` from `models/checklist`: "each item becomes one
selectable line tagged with its fingerprint id in a machine-recoverable
way (e.g. encoded in an HTML comment ...)". -/
def renderItemLine (ns key : Str) (it : ChecklistItem) : Str :=
  str "- [" ++ [if it.checked then 'x' else ' '] ++ str "] <!-- " ++ ns ++ str "/" ++ key
    ++ str "/" ++ it.id ++ str " --> " ++ it.body

/-- Modelled from the spec: `createChecklist(namespace, key, items)` from
`models/checklist`, a deterministic serialization of the items. -/
def createChecklist (ns key : Str) (items : List ChecklistItem) : Str :=
  joinLines (items.map (renderItemLine ns key))

/-- Strip a literal from the front of a string, or fail. -/
def chopLit (lit s : Str) : Option Str :=
  if lit.isPrefixOf s then some (s.drop lit.length) else none

/-- Modelled from the spec: parsing one line back into a checklist item;
malformed lines are skipped (`parse` tolerates them), and lines from other
namespaces are ignored. -/
def parseItemLine (ns line : Str) : Option (Str × ChecklistItem) := do
  let s1 ← chopLit (str "- [") line
  match s1 with
  | [] => none
  | c :: s2 => do
    let checked ← if c = 'x' then some true else if c = ' ' then some false else none
    let s3 ← chopLit (str "] <!-- ") s2
    let (tag, bodyTxt) ← splitFirst (str " --> ") s3
    match splitAllChar '/' tag with
    | [ns2, key, id] => if ns2 = ns then some (key, ⟨id, checked, bodyTxt⟩) else none
    | _ => none

/-- Append an item to the checklist with the given key, keeping first-seen
order of checklists (JavaScript object insertion order). -/
def insertItem (key : Str) (it : ChecklistItem) : List Checklist → List Checklist
  | [] => [⟨key, [it]⟩]
  | cl :: cls =>
    if cl.id = key then ⟨cl.id, cl.items ++ [it]⟩ :: cls else cl :: insertItem key it cls

/-- Modelled from the spec: `parseChecklists(body, namespace)` from
`models/checklist`: "must tolerate zero, one, or many checklists in the
given namespace; checklists outside the namespace are ignored; malformed
lines are skipped, not fatal". -/
def parseChecklists (body ns : Str) : List Checklist :=
  (linesOf body).foldl
    (fun acc line =>
      match parseItemLine ns line with
      | none => acc
      | some (key, it) => insertItem key it acc)
    []

/-- `checklists[key]` on the parsed mapping. -/
def lookupChecklist (key : Str) (cls : List Checklist) : Option Checklist :=
  cls.find? (fun cl => cl.id == key)

/-- Modelled from the spec: the configuration record (spec section 6):
a mapping from semantic role to an optional label specification, plus the
extra skip-release label specifications.  A specification is modelled by
its name. -/
structure Config where
  labels : Str → Option Str
  skipReleaseLabels : List Str

/-- Modelled from the spec: `populateLabel(role, labelConfig, ...)` from
`models/label` (spec section 4.2): reuse the configured name when present,
otherwise derive the default name from the role; catalog creation is
idempotent and does not affect the returned label. -/
def populateLabel (role : Str) (cfgName : Option Str) : Str :=
  cfgName.getD role

/-- Modelled from the spec: `getSkipReleaseLabelsFromConfig` from
`models/label`: the skip-release role specification together with the
additional skip-release specifications. -/
def getSkipReleaseLabelsFromConfig (config : Config) : List (Option Str) :=
  config.labels (str "skip-release") :: config.skipReleaseLabels.map some

/-- All label names the configuration can resolve, in role order. -/
def configLabelNames (config : Config) : List Str :=
  [populateLabel (str "major") (config.labels (str "major")),
   populateLabel (str "minor") (config.labels (str "minor")),
   populateLabel (str "patch") (config.labels (str "patch"))]
  ++ (getSkipReleaseLabelsFromConfig config).map (populateLabel (str "skip-release"))

/-- Modelled from the spec: `findLabelFromHash(hash, config)` from
`models/label`: recover the configured label whose canonical name has the
given fingerprint, if any. -/
def findLabelFromHash (id : Str) (config : Config) : Option Str :=
  (configLabelNames config).find? (fun n => hashName n == id)

/-- Modelled from the spec: `renderLabel` from `models/label`, the visible
markdown for one label line; modelled as the label name. -/
def renderLabel (label : Str) : Str := label

/-! ## The pr-onboarding source itself -/

/-- `CHECKLIST_NAMESPACE`. -/
def CHECKLIST_NAMESPACE : Str := str "autobot"

/-- `ChecklistKey.semver`. -/
def semverKey : Str := str "semver"

/-- `ChecklistKey.skipRelease`. -/
def skipReleaseKey : Str := str "skipRelease"

/-- `Object.values(ChecklistKey)`. -/
def checklistKeys : List Str := [semverKey, skipReleaseKey]

/-- `createAutoChecklist`. -/
def createAutoChecklist (key : Str) (items : List ChecklistItem) : Str :=
  createChecklist CHECKLIST_NAMESPACE key items

/-- `parseAutoChecklists`. -/
def parseAutoChecklists (body : Str) : List Checklist :=
  parseChecklists body CHECKLIST_NAMESPACE

/-- `MessageStart`. -/
def MessageStart : Str := str "<!--- AutoPR:START --->"

/-- `MessageEnd`. -/
def MessageEnd : Str := str "<!--- AutoPR:END --->"

/-- `messageWrapper`: the dedent template around the wrapped content,
with the exact whitespace of the source template (four-space indents, a
trailing space after each marker interpolation). -/
def messageWrapper (body : Str) : Str :=
  dedent (str "\n    " ++ MessageStart ++ str " \n    ---\n\n    " ++ body
    ++ str "\n\n    <sub>_Generated by [auto-it](https://github.com/apps/auto-it)_</sub>\n    "
    ++ MessageEnd ++ str " \n")

/-- `Array.prototype.join(sep)`. -/
def joinWith (sep : Str) : List Str → Str
  | [] => []
  | [x] => x
  | x :: xs => x ++ sep ++ joinWith sep xs

/-- `onBoardingMessage`: the dedent template around the rendered sections. -/
def onBoardingMessage (sections : List Str) : Str :=
  dedent (str "\n    <img align=\"left\" width=\"60\" src=\"https://autobot.auto-it.now.sh/public/logo.png\"/>\n\n    ### Choose a release label\n\n    This repository uses [auto](https://github.com/intuit/auto) to generate releases. In order to do that, \n    it needs an appropriate label assigned to each PR. Choose a label below that you feel best suites your changes.\n\n    "
    ++ joinWith (str "\n\n") sections ++ str "\n  ")

/-- `parseMessage`: `body.split(MessageStart)[1].split(MessageEnd)[0]`.
`none` models the `TypeError` thrown when `MessageStart` is absent and
piece `[1]` is `undefined`. -/
def parseMessage (body : Str) : Option Str :=
  (piece1 MessageStart body).map (fun rest => piece0 MessageEnd rest)

/-- The JavaScript coercion of a possibly-`undefined` string used in
concatenation: `undefined` stringifies to `"undefined"`. -/
def jsUndef : Option Str → Str
  | some s => s
  | none => str "undefined"

/-- `overwriteMessage`: splits the current body at the markers and splices
`messageWrapper content` between the pieces.  `none` models the `TypeError`
when `MessageStart` is absent (destructured `bottomHalf` is `undefined`);
when `MessageEnd` is absent, `end` is `undefined` and the concatenation
stringifies it. -/
def overwriteMessage (body content : Str) : Option Str :=
  match piece1 MessageStart body with
  | none => none
  | some bottomHalf =>
    some (piece0 MessageStart body ++ messageWrapper content
      ++ jsUndef (piece1 MessageEnd bottomHalf))

/-- `sectionHeader` (the unused `info` parameter is dropped). -/
def sectionHeader (text : Str) (secondaryText : Option Str) : Str :=
  sub (bold text ++ (match secondaryText with
    | some s2 => str " " ++ italics s2
    | none => []))

/-- `semverHead`. -/
def semverHead : Str := sectionHeader (str "Semver Labels") (some (str "(choose one at most)"))

/-- `skipReleaseHead`. -/
def skipReleaseHead : Str := sectionHeader (str "Skip Release Labels") none

/-- `section` (renamed: `section` is a Lean keyword), with the exact
whitespace of the source template. -/
def sectionMd (header checklist : Str) (warning : Option Str) : Str :=
  dedent (str "\n    ##\n\n    " ++ header ++ str "\n    \n    " ++ checklist ++ str "\n    "
    ++ (match warning with
        | some wtext => str "\n" ++ sub (str ":warning: " ++ italics (bold wtext))
        | none => [])
    ++ str "\n    ")

/-- `isOnboarding`: `body.includes(MessageStart)`. -/
def isOnboarding (body : Str) : Bool := (splitFirst MessageStart body).isSome

/-- One computed checklist item of `createLabelChecklists` (the body of the
`map` over label types): carry the checked flag over from the previously
parsed checklist unless labels are the source of truth, in which case the
flag is exactly "is this label currently attached". -/
def checklistItemFor (checklists : List Checklist) (key : Str) (useLabels : Bool)
    (prLabels : List Str) (labelName : Str) : ChecklistItem :=
  let labelId := hashName labelName
  let checkedPrior :=
    match lookupChecklist key checklists with
    | some cl =>
      match cl.items.find? (fun it => it.id == labelId) with
      | some it => it.checked
      | none => false
    | none => false
  { id := labelId
    checked := if useLabels then prLabels.contains labelName else checkedPrior
    body := renderLabel labelName }

/-- The semver items of `createLabelChecklists` (the `map` over
`["major", "minor", "patch"]`). -/
def semverItemsOf (prBody : Str) (config : Config) (useLabels : Bool)
    (prLabels : List Str) : List ChecklistItem :=
  let checklists := parseAutoChecklists prBody
  [str "major", str "minor", str "patch"].map
    (fun labelType =>
      checklistItemFor checklists semverKey useLabels prLabels
        (populateLabel labelType (config.labels labelType)))

/-- The skip-release items of `createLabelChecklists`. -/
def skipItemsOf (prBody : Str) (config : Config) (useLabels : Bool)
    (prLabels : List Str) : List ChecklistItem :=
  let checklists := parseAutoChecklists prBody
  (getSkipReleaseLabelsFromConfig config).map
    (fun labelConfig =>
      checklistItemFor checklists skipReleaseKey useLabels prLabels
        (populateLabel (str "skip-release") labelConfig))

/-- `createLabelChecklists` assembled into the two rendered sections. -/
def createLabelChecklists (prBody : Str) (config : Config) (useLabels : Bool)
    (prLabels : List Str) : List Str :=
  let semverItems := semverItemsOf prBody config useLabels prLabels
  let semverWarnings : Option Str :=
    if moreThanOneItemChecked semverItems
    then some (str "At most one semver label should be selected") else none
  let skipItems := skipItemsOf prBody config useLabels prLabels
  let skipWarnings : Option Str :=
    if moreThanOneItemChecked skipItems
    then some (str "At most one skip release label should be selected") else none
  [sectionMd semverHead (createAutoChecklist semverKey semverItems) semverWarnings,
   sectionMd skipReleaseHead (createAutoChecklist skipReleaseKey skipItems) skipWarnings]

/-- `getLabelTextFromChecklistItem` (the debug log is invisible here). -/
def getLabelTextFromChecklistItem (it : ChecklistItem) (config : Config) : Option Str :=
  findLabelFromHash it.id config

/-- The checklist items `getRequiredLabelChanges` collects from the parsed
message: all items of checklists whose key is one of the autobot keys. -/
def checklistItemsOfMessage (msg : Str) : List ChecklistItem :=
  (((parseAutoChecklists msg).filter (fun cl => checklistKeys.contains cl.id)).map
    (fun cl => cl.items)).foldl (fun a b => a ++ b) []

/-- The label-change pair computed by `getRequiredLabelChanges`. -/
structure LabelChanges where
  labelsToAdd : List Str
  labelsToRemove : List Str
deriving DecidableEq

/-- The core of `getRequiredLabelChanges` after the message is extracted:
checked items resolve into `labelsToAdd`, unchecked items into
`labelsToRemove`; unresolvable items are dropped by the `filter`. -/
def requiredChangesOfMessage (msg : Str) (config : Config) : LabelChanges :=
  let items := checklistItemsOfMessage msg
  { labelsToAdd :=
      (items.filter (fun it => it.checked)).filterMap
        (fun it => getLabelTextFromChecklistItem it config)
    labelsToRemove :=
      (items.filter (fun it => !it.checked)).filterMap
        (fun it => getLabelTextFromChecklistItem it config) }

/-- `getRequiredLabelChanges(body, config)`; `none` models the `TypeError`
of `parseMessage` on a body without `MessageStart`. -/
def getRequiredLabelChanges (body : Str) (config : Config) : Option LabelChanges :=
  (parseMessage body).map (fun msg => requiredChangesOfMessage msg config)

/-- The webhook actions the handler distinguishes. -/
inductive PRAction
  | opened | edited | labeled | unlabeled | other
deriving DecidableEq

/-- One inbound event together with the answers of the external
collaborators consulted during the pass (configuration, release state,
self-authorship oracle, attached labels, the `changes.body.from`
snapshot). -/
structure EventInput where
  action : PRAction
  prBody : Str
  changesBodyFrom : Option Str
  sentByApp : Bool
  hasReleaseLabels : Bool
  prLabels : List Str
  config : Config

/-- `didBodyChange`: `changes.body.from` is a string and the new body is
truthy. -/
def didBodyChange (e : EventInput) : Bool :=
  e.changesBodyFrom.isSome && !e.prBody.isEmpty

/-- A thrown JavaScript `TypeError` (property access on `undefined`). -/
inductive JsErr
  | typeErr
deriving DecidableEq

/-- `didChecklistsChange`: lodash `isEqual` on the parsed checklists. -/
def didChecklistsChange (newMessage oldMessage : Str) : Bool :=
  if parseAutoChecklists newMessage = parseAutoChecklists oldMessage then false else true

/-- `didMessageChange`: no body change means `false`; otherwise both the new
and the previous body are parsed (either parse may throw), and the result
is whether the embedded messages differ. -/
def didMessageChange (e : EventInput) : Except JsErr Bool :=
  if didBodyChange e = false then .ok false
  else
    match parseMessage e.prBody with
    | none => .error .typeErr
    | some newMessage =>
      match e.changesBodyFrom with
      | none => .error .typeErr
      | some fromBody =>
        match parseMessage fromBody with
        | none => .error .typeErr
        | some oldMessage => .ok (decide (newMessage ≠ oldMessage))

/-- The externally visible mutations a pass can attempt, in order, plus the
diagnostic `logger.error` calls of the failure path. -/
inductive Effect
  | addLabels (names : List Str)
  | removeLabels (names : List Str)
  | updateBody (body : Str)
  | logError (tag : Str)
deriving DecidableEq

/-- How a pass ends: normally, with the aggregated `edited`-path error, with
the rethrown transport error of the labeled path, or with a `TypeError`. -/
inductive Outcome
  | ok
  | aggregateError
  | transportError
  | jsTypeError
deriving DecidableEq

/-- The new-message computation shared by the `edited` path. -/
def editedNewMessage (e : EventInput) : Str :=
  onBoardingMessage (createLabelChecklists e.prBody e.config false [])

/-- The `edited` branch after its guards: rewrite the envelope, recompute
the label changes when the checklists changed, attempt tag-add, tag-remove
(only in that case) and the body update (always), each independently, log
every failure and throw one aggregated error if anything failed.
`fa`, `fr`, `fu` are the transport-failure oracles of the three calls. -/
def editedCore (e : EventInput) (fa fr fu : Bool) : List Effect × Outcome :=
  let newMessage := editedNewMessage e
  match overwriteMessage e.prBody newMessage with
  | none => ([], .jsTypeError)
  | some body =>
    match e.changesBodyFrom with
    | none => ([], .jsTypeError)
    | some fromBody =>
      match parseMessage fromBody with
      | none => ([], .jsTypeError)
      | some oldMessage =>
        if didChecklistsChange newMessage oldMessage then
          match getRequiredLabelChanges body e.config with
          | none => ([], .jsTypeError)
          | some ch =>
            ([.addLabels ch.labelsToAdd, .removeLabels ch.labelsToRemove, .updateBody body]
              ++ (if fa then [.logError (str "add labels")] else [])
              ++ (if fr then [.logError (str "remove labels")] else [])
              ++ (if fu then [.logError (str "update body")] else []),
             if fa || fr || fu then .aggregateError else .ok)
        else
          ([.updateBody body] ++ (if fu then [.logError (str "update body")] else []),
           if fu then .aggregateError else .ok)

/-- The labeled/unlabeled branch after its guards: re-render from the
currently attached labels, rewrite the body only when the checklists
differ, and rethrow a failing body update. -/
def labeledCore (e : EventInput) (fu : Bool) : List Effect × Outcome :=
  let newMessage := onBoardingMessage (createLabelChecklists e.prBody e.config true e.prLabels)
  match parseMessage e.prBody with
  | none => ([], .jsTypeError)
  | some current =>
    if didChecklistsChange newMessage current then
      match overwriteMessage e.prBody newMessage with
      | none => ([], .jsTypeError)
      | some body =>
        if fu then ([.updateBody body, .logError (str "update body")], .transportError)
        else ([.updateBody body], .ok)
    else ([], .ok)

/-- The `opened`-path body: the dedent template appending the wrapped
envelope to the existing body (the `pulls.update` there is not awaited, so
its outcome never surfaces). -/
def openedBody (prBody wrapped : Str) : Str :=
  dedent (str "\n      " ++ prBody ++ str "\n      \n      " ++ wrapped ++ str "\n    ")

/-- The default export: the event-driven state machine.  `fa`, `fr`, `fu`
are the transport-failure oracles for the tag-add, tag-remove and
body-update calls of the current pass. -/
def handler (e : EventInput) (fa fr fu : Bool) : List Effect × Outcome :=
  let onBoarding := e.action ≠ PRAction.opened ∧ isOnboarding e.prBody = true
  if e.action = PRAction.opened ∧ e.hasReleaseLabels = false then
    ([.updateBody (openedBody e.prBody
        (messageWrapper (onBoardingMessage (createLabelChecklists e.prBody e.config false []))))],
     .ok)
  else if onBoarding ∧ e.action = PRAction.edited then
    match didMessageChange e with
    | .error _ => ([], .jsTypeError)
    | .ok false => ([], .ok)
    | .ok true => if e.sentByApp then ([], .ok) else editedCore e fa fr fu
  else if onBoarding ∧ (e.action = PRAction.labeled ∨ e.action = PRAction.unlabeled) then
    if e.sentByApp then ([], .ok) else labeledCore e fu
  else ([], .ok)

/-! ## Facts about the sentinel markers -/

theorem messageStart_borderFree : ¬ properBorder MessageStart := by decide

theorem messageEnd_borderFree : ¬ properBorder MessageEnd := by decide

/-- C2 (amended): extraction throws exactly when the `START` marker is
absent.  When `START` is present but `END` is absent, `parseMessage`
returns the remainder after `START` without raising (see the
counterexample), because `split(MessageEnd)[0]` of a string not containing
`MessageEnd` is the whole string. -/
theorem parseMessageThrowsIffNoStart (body : Str) :
    parseMessage body = none ↔ ¬ occurs MessageStart body := by
  rw [← splitFirst_eq_none_iff (show MessageStart ≠ [] by decide)]
  rw [parseMessage, piece1]
  cases hsp : splitFirst MessageStart body with
  | none => simp
  | some p =>
    obtain ⟨l, r⟩ := p
    simp

/-- C2 (counterexample): a concrete body that contains `START` but no
matching `END`; extraction returns the text after `START` as an ordinary
value instead of raising `MalformedEnvelope`. -/
theorem parseMessageMissingEndCounterexample :
    occurs MessageStart (str "user text " ++ MessageStart ++ str "hello")
    ∧ ¬ occurs MessageEnd (str "user text " ++ MessageStart ++ str "hello")
    ∧ parseMessage (str "user text " ++ MessageStart ++ str "hello") = some (str "hello") := by
  refine ⟨⟨str "user text ", str "hello", by simp⟩, by decide, by decide⟩

/-- C3: splicing new content into `A ++ wrap x ++ B` yields exactly
`A ++ wrap y ++ B`, byte for byte, provided each sentinel occurs exactly
once: `A` contains no `START`, the wrapped middle and `B` contain no
further `START`, and neither the wrapped middle (`wMid`) nor `B` contains
an `END`.  `hwrapx` records that the wrapped envelope is exactly
`START ++ wMid ++ END`. -/
theorem spliceEnvelopeIsolation (A B x y wMid : Str)
    (hwrapx : messageWrapper x = MessageStart ++ wMid ++ MessageEnd)
    (hA : ¬ occurs MessageStart A)
    (hMid : ¬ occurs MessageStart (wMid ++ MessageEnd ++ B))
    (hMidE : ¬ occurs MessageEnd wMid)
    (hBE : ¬ occurs MessageEnd B) :
    overwriteMessage (A ++ messageWrapper x ++ B) y
      = some (A ++ messageWrapper y ++ B) := by
  rw [hwrapx]
  have hassoc : A ++ (MessageStart ++ wMid ++ MessageEnd) ++ B
      = A ++ MessageStart ++ (wMid ++ MessageEnd ++ B) := by simp
  rw [overwriteMessage, hassoc]
  rw [piece1_emergence _ _ (by decide) messageStart_borderFree hA]
  rw [piece0_emergence _ _ (by decide) messageStart_borderFree hA]
  rw [piece0_of_not_occurs (by decide) hMid]
  show some (A ++ messageWrapper y ++ jsUndef (piece1 MessageEnd (wMid ++ MessageEnd ++ B)))
    = some (A ++ messageWrapper y ++ B)
  rw [piece1_emergence _ _ (by decide) messageEnd_borderFree hMidE]
  rw [piece0_of_not_occurs (by decide) hBE]
  rfl

set_option maxRecDepth 40000 in
/-- C3 (witness): envelope isolation at concrete user text and contents. -/
theorem spliceEnvelopeIsolationWitness :
    overwriteMessage (str "Intro\n" ++ messageWrapper (str "hello") ++ str "\nOutro")
        (str "world")
      = some (str "Intro\n" ++ messageWrapper (str "world") ++ str "\nOutro") :=
  spliceEnvelopeIsolation (str "Intro\n") (str "\nOutro") (str "hello") (str "world")
    (str " \n---\n\nhello\n\n<sub>_Generated by [auto-it](https://github.com/apps/auto-it)_</sub>\n")
    (by decide) (by decide) (by decide) (by decide) (by decide)

/-- C9: when `START` occurs a second time, everything after that second
occurrence (`C`, and the second `START` itself) is dropped from the result
of `overwriteMessage`, and the preserved tail is only the text up to the
next `END` (`piece0 MessageEnd B2`): the user-text preservation guarantee
holds only when each sentinel occurs exactly once. -/
theorem overwriteDropsAfterSecondStart (A B1 B2 C y : Str)
    (hA : ¬ occurs MessageStart A)
    (hB : ¬ occurs MessageStart (B1 ++ MessageEnd ++ B2))
    (hB1 : ¬ occurs MessageEnd B1) :
    overwriteMessage (A ++ MessageStart ++ (B1 ++ MessageEnd ++ B2) ++ MessageStart ++ C) y
      = some (A ++ messageWrapper y ++ piece0 MessageEnd B2) := by
  have hassoc : A ++ MessageStart ++ (B1 ++ MessageEnd ++ B2) ++ MessageStart ++ C
      = A ++ MessageStart ++ ((B1 ++ MessageEnd ++ B2) ++ MessageStart ++ C) := by simp
  rw [overwriteMessage, hassoc]
  rw [piece1_emergence _ _ (by decide) messageStart_borderFree hA]
  rw [piece0_emergence _ _ (by decide) messageStart_borderFree hA]
  rw [piece0_emergence _ _ (by decide) messageStart_borderFree hB]
  show some (A ++ messageWrapper y ++ jsUndef (piece1 MessageEnd (B1 ++ MessageEnd ++ B2)))
    = some (A ++ messageWrapper y ++ piece0 MessageEnd B2)
  rw [piece1_emergence _ _ (by decide) messageEnd_borderFree hB1]
  rfl

set_option maxRecDepth 40000 in
/-- C9 (witness): with two `START` markers in the body, the text after the
second one (`SECRET`) is absent from the spliced result, and text after a
second `END` in the remainder would be truncated likewise. -/
theorem overwriteDropsAfterSecondStartWitness :
    overwriteMessage (str "A" ++ MessageStart ++ (str "inner" ++ MessageEnd ++ str "tail")
        ++ MessageStart ++ str "SECRET") (str "y")
      = some (str "A" ++ messageWrapper (str "y") ++ piece0 MessageEnd (str "tail")) :=
  overwriteDropsAfterSecondStart (str "A") (str "inner") (str "tail") (str "SECRET") (str "y")
    (by decide) (by decide) (by decide)

/-! ## Handler-path helpers -/

theorem handler_labeled_path (e : EventInput) (fa fr fu : Bool)
    (hact : e.action = PRAction.labeled ∨ e.action = PRAction.unlabeled)
    (honb : isOnboarding e.prBody = true) (hsent : e.sentByApp = false) :
    handler e fa fr fu = labeledCore e fu := by
  have hne : e.action ≠ PRAction.opened := by
    rcases hact with h | h <;> rw [h] <;> exact fun hh => PRAction.noConfusion hh
  have hned : e.action ≠ PRAction.edited := by
    rcases hact with h | h <;> rw [h] <;> exact fun hh => PRAction.noConfusion hh
  simp only [handler]
  rw [if_neg (by rintro ⟨h1, _⟩; exact hne h1)]
  rw [if_neg (by rintro ⟨_, h2⟩; exact hned h2)]
  rw [if_pos ⟨⟨hne, honb⟩, hact⟩]
  rw [hsent]
  rfl

theorem handler_edited_path (e : EventInput) (fa fr fu : Bool)
    (hact : e.action = PRAction.edited) (honb : isOnboarding e.prBody = true)
    (hmc : didMessageChange e = Except.ok true) (hsent : e.sentByApp = false) :
    handler e fa fr fu = editedCore e fa fr fu := by
  have hne : e.action ≠ PRAction.opened := by
    rw [hact]; exact fun hh => PRAction.noConfusion hh
  simp only [handler]
  rw [if_neg (by rintro ⟨h1, _⟩; exact hne h1)]
  rw [if_pos ⟨⟨hne, honb⟩, hact⟩]
  rw [hmc, hsent]
  rfl

/-- C4: on `edited`, `labeled` and `unlabeled` events whose most recent
actor is the automation itself (`sentByThisApp` answers `true`), the
handler attempts no mutation at all — no tag add, no tag remove, no body
update — whatever else the event carries and however the transports would
have behaved.  (On the `edited` path the guard runs after
`didMessageChange`, which can itself throw on a malformed previous
snapshot, but even then no mutation is attempted.) -/
theorem selfAuthoredSuppression (e : EventInput) (fa fr fu : Bool)
    (hact : e.action = PRAction.edited ∨ e.action = PRAction.labeled
      ∨ e.action = PRAction.unlabeled)
    (hsent : e.sentByApp = true) :
    (handler e fa fr fu).1 = [] := by
  have hne : e.action ≠ PRAction.opened := by
    rcases hact with h | h | h <;> rw [h] <;> exact fun hh => PRAction.noConfusion hh
  simp only [handler]
  rw [if_neg (by rintro ⟨h1, _⟩; exact hne h1)]
  by_cases h2 : (e.action ≠ PRAction.opened ∧ isOnboarding e.prBody = true)
      ∧ e.action = PRAction.edited
  · rw [if_pos h2]
    cases hmc : didMessageChange e with
    | error err => rfl
    | ok b =>
      cases b with
      | false => rfl
      | true => rw [hsent]; rfl
  · rw [if_neg h2]
    by_cases h3 : (e.action ≠ PRAction.opened ∧ isOnboarding e.prBody = true)
        ∧ (e.action = PRAction.labeled ∨ e.action = PRAction.unlabeled)
    · rw [if_pos h3, hsent]
      rfl
    · rw [if_neg h3]

/-- C4 (witness): a self-authored `labeled` event on an onboarded body
attempts no mutation. -/
theorem selfAuthoredSuppressionWitness :
    (handler ⟨PRAction.labeled, MessageStart ++ MessageEnd, none, true, false, [],
        ⟨fun _ => none, []⟩⟩ false false false).1 = [] :=
  selfAuthoredSuppression _ false false false (Or.inr (Or.inl rfl)) rfl

/-- C7: an `opened` event on a document that already carries a release
label takes the final no-op branch: no envelope is written and no mutation
of any kind is attempted. -/
theorem openedWithReleaseLabelsNoop (e : EventInput) (fa fr fu : Bool)
    (hact : e.action = PRAction.opened) (hrel : e.hasReleaseLabels = true) :
    handler e fa fr fu = ([], Outcome.ok) := by
  simp only [handler]
  rw [if_neg (by rintro ⟨_, h2⟩; rw [hrel] at h2; exact Bool.noConfusion h2)]
  rw [if_neg (by rintro ⟨⟨h1, _⟩, _⟩; exact h1 hact)]
  rw [if_neg (by rintro ⟨⟨h1, _⟩, _⟩; exact h1 hact)]

/-- C7 (witness): an `opened` event with release labels present is a
complete no-op. -/
theorem openedWithReleaseLabelsNoopWitness :
    handler ⟨PRAction.opened, str "body", none, false, true, [], ⟨fun _ => none, []⟩⟩
        false false false = ([], Outcome.ok) :=
  openedWithReleaseLabelsNoop _ false false false rfl rfl

/-- The three resolved semver label names, in checklist order. -/
def semverNames (config : Config) : List Str :=
  [populateLabel (str "major") (config.labels (str "major")),
   populateLabel (str "minor") (config.labels (str "minor")),
   populateLabel (str "patch") (config.labels (str "patch"))]

theorem length_filter_map_eq {α β : Type} (l : List α) (f : α → β) (p : β → Bool)
    (q : α → Bool) (h : ∀ x ∈ l, p (f x) = q x) :
    ((l.map f).filter p).length = (l.filter q).length := by
  induction l with
  | nil => rfl
  | cons a as ih =>
    have ih2 := ih (fun x hx => h x (by simp [hx]))
    rw [List.map_cons, List.filter_cons, List.filter_cons, h a (by simp)]
    cases hq : q a <;> simp [ih2]

theorem labeledCore_effects_shape (e : EventInput) (fu : Bool) :
    ∀ eff ∈ (labeledCore e fu).1,
      (∃ b, eff = Effect.updateBody b) ∨ (∃ t, eff = Effect.logError t) := by
  intro eff heff
  rw [labeledCore] at heff
  split at heff
  · simp at heff
  · split at heff
    · split at heff
      · simp at heff
      · split at heff
        · simp at heff
          rcases heff with rfl | rfl
          · exact Or.inl ⟨_, rfl⟩
          · exact Or.inr ⟨_, rfl⟩
        · simp at heff
          exact Or.inl ⟨_, heff⟩
    · simp at heff

/-- C6: on a `labeled`/`unlabeled` event (envelope present, not
self-authored), the re-rendered semver checklist derives its checked flags
solely from the currently attached tags — item `i` is checked exactly when
the `i`-th resolved semver name is attached, regardless of any checked
flags in the previously embedded checklist — so with exactly one semver
tag attached exactly one item is checked; and the handler issues no
tag-add or tag-remove call on this path. -/
theorem labeledChecksFromTags (e : EventInput) (fa fr fu : Bool)
    (hact : e.action = PRAction.labeled ∨ e.action = PRAction.unlabeled)
    (honb : isOnboarding e.prBody = true) (hsent : e.sentByApp = false)
    (hone : ((semverNames e.config).filter (fun n => e.prLabels.contains n)).length = 1) :
    ((semverItemsOf e.prBody e.config true e.prLabels).map (fun it => it.checked)
      = (semverNames e.config).map (fun n => e.prLabels.contains n))
    ∧ ((semverItemsOf e.prBody e.config true e.prLabels).filter
        (fun it => it.checked)).length = 1
    ∧ (∀ ns, Effect.addLabels ns ∉ (handler e fa fr fu).1
        ∧ Effect.removeLabels ns ∉ (handler e fa fr fu).1) := by
  refine ⟨?_, ?_, ?_⟩
  · simp [semverItemsOf, checklistItemFor, semverNames]
  · have hsv : semverItemsOf e.prBody e.config true e.prLabels
        = (semverNames e.config).map
            (fun n => checklistItemFor (parseAutoChecklists e.prBody) semverKey true
              e.prLabels n) := by
      simp [semverItemsOf, semverNames]
    rw [hsv, length_filter_map_eq _ _ _ (fun n => e.prLabels.contains n)
      (fun n _ => by simp [checklistItemFor])]
    exact hone
  · intro ns
    rw [handler_labeled_path e fa fr fu hact honb hsent]
    constructor
    · intro hmem
      rcases labeledCore_effects_shape e fu _ hmem with ⟨b, hb⟩ | ⟨t, ht⟩ <;> simp_all
    · intro hmem
      rcases labeledCore_effects_shape e fu _ hmem with ⟨b, hb⟩ | ⟨t, ht⟩ <;> simp_all

/-- C6 (witness): with exactly the `minor` tag attached, the re-rendered
checklist checks exactly the `minor` item and the handler issues no tag
mutation. -/
theorem labeledChecksFromTagsWitness :
    ((semverItemsOf (MessageStart ++ str "m" ++ MessageEnd) ⟨fun _ => none, []⟩ true
        [str "minor"]).map (fun it => it.checked)
      = (semverNames ⟨fun _ => none, []⟩).map (fun n => [str "minor"].contains n))
    ∧ ((semverItemsOf (MessageStart ++ str "m" ++ MessageEnd) ⟨fun _ => none, []⟩ true
        [str "minor"]).filter (fun it => it.checked)).length = 1
    ∧ (∀ ns, Effect.addLabels ns ∉ (handler ⟨PRAction.labeled,
          MessageStart ++ str "m" ++ MessageEnd, none, false, false, [str "minor"],
          ⟨fun _ => none, []⟩⟩ false false false).1
        ∧ Effect.removeLabels ns ∉ (handler ⟨PRAction.labeled,
          MessageStart ++ str "m" ++ MessageEnd, none, false, false, [str "minor"],
          ⟨fun _ => none, []⟩⟩ false false false).1) :=
  labeledChecksFromTags ⟨PRAction.labeled, MessageStart ++ str "m" ++ MessageEnd, none,
    false, false, [str "minor"], ⟨fun _ => none, []⟩⟩ false false false
    (Or.inl rfl) (by decide) rfl (by decide)

/-- C5: on the `edited` path (envelope present, message changed, not
self-authored), with `fa`/`fr`/`fu` the failure oracles of the tag-add,
tag-remove and body-update transports: when the checklists changed, all
three mutations are attempted in order regardless of which of them fail
(the attempted-effects prefix does not depend on the oracles), every
failed call is logged, and exactly one aggregated failure is raised if and
only if at least one call failed; when the checklists did not change, the
body update is still always attempted and a failure surfaces as the same
single aggregated error. -/
theorem editedFailureComposition (e : EventInput) (fa fr fu : Bool)
    (body fromBody oldMessage : Str) (ch : LabelChanges)
    (hact : e.action = PRAction.edited) (honb : isOnboarding e.prBody = true)
    (hmc : didMessageChange e = Except.ok true) (hsent : e.sentByApp = false)
    (hov : overwriteMessage e.prBody (editedNewMessage e) = some body)
    (hfrom : e.changesBodyFrom = some fromBody)
    (hold : parseMessage fromBody = some oldMessage)
    (hch : getRequiredLabelChanges body e.config = some ch) :
    (didChecklistsChange (editedNewMessage e) oldMessage = true →
      (handler e fa fr fu).1
        = [Effect.addLabels ch.labelsToAdd, Effect.removeLabels ch.labelsToRemove,
            Effect.updateBody body]
          ++ (if fa then [Effect.logError (str "add labels")] else [])
          ++ (if fr then [Effect.logError (str "remove labels")] else [])
          ++ (if fu then [Effect.logError (str "update body")] else [])
      ∧ ((handler e fa fr fu).2 = Outcome.aggregateError ↔ (fa || fr || fu) = true))
    ∧ (didChecklistsChange (editedNewMessage e) oldMessage = false →
      (handler e fa fr fu).1
        = [Effect.updateBody body]
          ++ (if fu then [Effect.logError (str "update body")] else [])
      ∧ ((handler e fa fr fu).2 = Outcome.aggregateError ↔ fu = true)) := by
  rw [handler_edited_path e fa fr fu hact honb hmc hsent]
  rw [editedCore]
  simp only [hov, hfrom, hold, hch]
  constructor
  · intro hcc
    rw [if_pos hcc]
    constructor
    · rfl
    · cases fa <;> cases fr <;> cases fu <;> simp
  · intro hcc
    rw [if_neg (by simp [hcc])]
    constructor
    · rfl
    · cases fu <;> simp

/-- Configuration for the C5 witness scenario: every role takes its default
name. -/
def cfgW : Config := ⟨fun _ => none, []⟩

/-- New body of the C5 witness scenario: envelope with the major box
ticked. -/
def prBodyW : Str :=
  str "B\n" ++ MessageStart ++ str "\n- [x] <!-- autobot/semver/major --> major\n"
    ++ MessageEnd ++ str "\nE"

/-- Previous body of the C5 witness scenario: envelope without a
checklist. -/
def fromBodyW : Str :=
  str "B\n" ++ MessageStart ++ str "\nnothing\n" ++ MessageEnd ++ str "\nE"

/-- The C5 witness event: an `edited` event ticking the major box. -/
def eW : EventInput := ⟨PRAction.edited, prBodyW, some fromBodyW, false, false, [], cfgW⟩

/-- The previously embedded message of the C5 witness scenario. -/
def oldW : Str := str "\nnothing\n"

/-- The rewritten body of the C5 witness scenario. -/
def bodyW : Str := (overwriteMessage prBodyW (editedNewMessage eW)).getD []

/-- The label changes computed in the C5 witness scenario. -/
def chW : LabelChanges := (getRequiredLabelChanges bodyW cfgW).getD ⟨[], []⟩

set_option maxRecDepth 100000 in
/-- C5 (witness): the witness event runs the `edited` path with the
tag-add and body-update transports failing; all three mutations are still
attempted, both failures are logged, and one aggregated error is raised. -/
theorem editedFailureCompositionWitness :
    (didChecklistsChange (editedNewMessage eW) oldW = true →
      (handler eW true false true).1
        = [Effect.addLabels chW.labelsToAdd, Effect.removeLabels chW.labelsToRemove,
            Effect.updateBody bodyW]
          ++ (if true then [Effect.logError (str "add labels")] else [])
          ++ (if false then [Effect.logError (str "remove labels")] else [])
          ++ (if true then [Effect.logError (str "update body")] else [])
      ∧ ((handler eW true false true).2 = Outcome.aggregateError
          ↔ (true || false || true) = true))
    ∧ (didChecklistsChange (editedNewMessage eW) oldW = false →
      (handler eW true false true).1
        = [Effect.updateBody bodyW]
          ++ (if true then [Effect.logError (str "update body")] else [])
      ∧ ((handler eW true false true).2 = Outcome.aggregateError ↔ true = true)) :=
  editedFailureComposition eW true false true bodyW fromBodyW oldW chW rfl (by rfl)
    (by rfl) rfl (by rfl) rfl (by rfl) (by rfl)

/-- The wrapped onboarding envelope computed on the `opened` path. -/
def wrappedEnvelope (e : EventInput) : Str :=
  messageWrapper (onBoardingMessage (createLabelChecklists e.prBody e.config false []))

theorem openedBody_shape (b w : Str) :
    str "\n      " ++ b ++ str "\n      \n      " ++ w ++ str "\n    "
      = '\n' :: (spaces 6 ++ (b ++ '\n' :: (spaces 6 ++ '\n' ::
          (spaces 6 ++ (w ++ '\n' :: spaces 4))))) := by
  rw [show str "\n      " = '\n' :: spaces 6 from by decide]
  rw [show str "\n      \n      " = '\n' :: (spaces 6 ++ '\n' :: spaces 6) from by decide]
  rw [show str "\n    " = '\n' :: spaces 4 from by decide]
  simp

/-- C8 (amended): on an `opened` event with no release label, the handler
attempts exactly one mutation, a body update whose payload is the existing
body, a blank separating line, and the wrapped onboarding envelope — and
the rendered checklist items are all unchecked — provided the existing
body embeds no autobot checklist, no line of the body or of the rendered
envelope begins with whitespace, the body starts and the envelope ends
with a non-whitespace character, and neither contains a backslash (the
surrounding `dedent` otherwise re-indents or trims the preserved text, see
the counterexample).  No tag mutation is attempted. -/
theorem openedAppendsEnvelope (e : EventInput) (fa fr fu : Bool)
    (hact : e.action = PRAction.opened) (hrel : e.hasReleaseLabels = false)
    (hparse : parseAutoChecklists e.prBody = [])
    (hb0 : e.prBody ≠ []) (hbh : isJsWs e.prBody.headI = false)
    (hbl : ∀ l ∈ linesOf e.prBody, l = [] ∨ isJsWs l.headI = false)
    (hbs : '\\' ∉ e.prBody)
    (hwl : ∀ l ∈ linesOf (wrappedEnvelope e), l = [] ∨ isJsWs l.headI = false)
    (hw0 : wrappedEnvelope e ≠ []) (hwe : isJsWs (wrappedEnvelope e).getLastI = false)
    (hws : '\\' ∉ wrappedEnvelope e) :
    handler e fa fr fu
      = ([Effect.updateBody (e.prBody ++ str "\n\n" ++ wrappedEnvelope e)], Outcome.ok)
    ∧ (semverItemsOf e.prBody e.config false []).all (fun it => !it.checked) = true
    ∧ (skipItemsOf e.prBody e.config false []).all (fun it => !it.checked) = true := by
  refine ⟨?_, ?_, ?_⟩
  · simp only [handler]
    rw [if_pos ⟨hact, hrel⟩]
    have hbody : openedBody e.prBody (wrappedEnvelope e)
        = e.prBody ++ str "\n\n" ++ wrappedEnvelope e := by
      rw [openedBody, openedBody_shape]
      rw [dedent_glue e.prBody (wrappedEnvelope e) hb0 hbh hbl hwl hw0 hwe hbs hws]
      simp [str]
    rw [show messageWrapper (onBoardingMessage (createLabelChecklists e.prBody e.config
        false [])) = wrappedEnvelope e from rfl, hbody]
  · simp [semverItemsOf, checklistItemFor, hparse, lookupChecklist]
  · simp [skipItemsOf, checklistItemFor, hparse, lookupChecklist]

set_option maxRecDepth 100000 in
/-- C8 (witness): a well-behaved one-line body is preserved as a prefix,
separated by a blank line from the envelope, all items unchecked, no tag
mutation. -/
theorem openedAppendsEnvelopeWitness :
    handler ⟨PRAction.opened, str "My PR body", none, false, false, [],
        ⟨fun _ => none, []⟩⟩ false false false
      = ([Effect.updateBody (str "My PR body" ++ str "\n\n"
          ++ wrappedEnvelope ⟨PRAction.opened, str "My PR body", none, false, false, [],
              ⟨fun _ => none, []⟩⟩)], Outcome.ok)
    ∧ (semverItemsOf (str "My PR body") ⟨fun _ => none, []⟩ false []).all
        (fun it => !it.checked) = true
    ∧ (skipItemsOf (str "My PR body") ⟨fun _ => none, []⟩ false []).all
        (fun it => !it.checked) = true :=
  openedAppendsEnvelope ⟨PRAction.opened, str "My PR body", none, false, false, [],
      ⟨fun _ => none, []⟩⟩ false false false rfl rfl (by rfl) (by decide) (by decide)
    (by decide) (by decide) (by decide) (by decide) (by decide) (by decide)

/-- The C8 counterexample event: an `opened` event whose body has an
indented second line. -/
def cex8Event : EventInput :=
  ⟨PRAction.opened, str "a\n  b", none, false, false, [], ⟨fun _ => none, []⟩⟩

set_option maxRecDepth 100000 in
/-- C8 (counterexample): on the `opened` event with body `"a\n  b"` (no
release label, no embedded checklist), the single attempted mutation is a
body update whose payload does not have the pre-existing body as a prefix:
the template `dedent` re-indents the user's text, so the claimed equality
"new body = existing body followed by the wrapped envelope" fails. -/
theorem openedIndentedBodyCounterexample :
    (handler cex8Event false false false).1.map
        (fun eff => match eff with
          | Effect.updateBody body => (str "a\n  b").isPrefixOf body
          | _ => true)
      = [false] := by decide

/-- C1 (amended): for an `edited` event whose new embedded message carries
a semver checklist with two boxes ticked (the previously ticked `n1` and
the newly ticked `n2`) and one unticked (`n3`), all resolving through the
configuration: the checklist-changed gate passes, the computed changes put
both ticked labels into `labelsToAdd` (in particular the newly ticked
one), the `moreThanOneChecked` warning condition holds for the group — and
`labelsToRemove` is not empty: it contains exactly the still-unticked
semver label `n3`, because the code derives removals from every unchecked
item of the new snapshot rather than from a diff. -/
theorem editedSecondSemverCheckDiff (body msg oldMsg : Str) (config : Config)
    (n1 n2 n3 b1 b2 b3 : Str)
    (hmsg : parseMessage body = some msg)
    (hnew : parseAutoChecklists msg
      = [⟨semverKey, [⟨hashName n1, true, b1⟩, ⟨hashName n2, true, b2⟩,
          ⟨hashName n3, false, b3⟩]⟩])
    (hold : parseAutoChecklists oldMsg
      = [⟨semverKey, [⟨hashName n1, true, b1⟩, ⟨hashName n2, false, b2⟩,
          ⟨hashName n3, false, b3⟩]⟩])
    (h1 : findLabelFromHash (hashName n1) config = some n1)
    (h2 : findLabelFromHash (hashName n2) config = some n2)
    (h3 : findLabelFromHash (hashName n3) config = some n3) :
    didChecklistsChange msg oldMsg = true
    ∧ getRequiredLabelChanges body config = some ⟨[n1, n2], [n3]⟩
    ∧ moreThanOneItemChecked (checklistItemsOfMessage msg) = true := by
  have hitems : checklistItemsOfMessage msg
      = [⟨hashName n1, true, b1⟩, ⟨hashName n2, true, b2⟩, ⟨hashName n3, false, b3⟩] := by
    rw [checklistItemsOfMessage, hnew]
    rfl
  refine ⟨?_, ?_, ?_⟩
  · rw [didChecklistsChange, hnew, hold]
    simp
  · rw [getRequiredLabelChanges, hmsg, Option.map_some']
    simp only [requiredChangesOfMessage, hitems]
    simp [getLabelTextFromChecklistItem, h1, h2, h3]
  · rw [moreThanOneItemChecked, hitems]
    simp

/-- The new embedded semver checklist of the C1 scenario: two boxes
ticked. -/
def cexNewMsg : Str :=
  str "- [x] <!-- autobot/semver/major --> major\n- [x] <!-- autobot/semver/minor --> minor\n- [ ] <!-- autobot/semver/patch --> patch"

/-- The previous embedded semver checklist of the C1 scenario: one box
ticked. -/
def cexOldMsg : Str :=
  str "- [x] <!-- autobot/semver/major --> major\n- [ ] <!-- autobot/semver/minor --> minor\n- [ ] <!-- autobot/semver/patch --> patch"

/-- The embedded message of the C1 scenario (the rendered checklist between
the markers). -/
def cexC1Msg : Str := str "\n" ++ cexNewMsg ++ str "\n"

/-- The new document body of the C1 scenario. -/
def cexC1Body : Str :=
  str "Hi\n" ++ MessageStart ++ cexC1Msg ++ MessageEnd ++ str "\nBye"

set_option maxRecDepth 100000 in
/-- C1 (counterexample): in the concrete two-checked-where-one-was
scenario, the previous snapshot has exactly one ticked item, the new one
has two, the checklist-changed gate passes and the warning condition
holds — but `labelsToRemove` is `["patch"]`, not empty, refuting the
claim's "`toRemove` is empty for that group". -/
theorem editedSecondSemverCheckCounterexample :
    ((checklistItemsOfMessage cexOldMsg).filter (fun it => it.checked)).length = 1
    ∧ ((checklistItemsOfMessage cexC1Msg).filter (fun it => it.checked)).length = 2
    ∧ didChecklistsChange cexC1Msg cexOldMsg = true
    ∧ moreThanOneItemChecked (checklistItemsOfMessage cexC1Msg) = true
    ∧ getRequiredLabelChanges cexC1Body ⟨fun _ => none, []⟩
        = some ⟨[str "major", str "minor"], [str "patch"]⟩
    ∧ (getRequiredLabelChanges cexC1Body ⟨fun _ => none, []⟩).map
        (fun ch => ch.labelsToRemove) ≠ some [] := by
  decide

set_option maxRecDepth 100000 in
/-- C1 (witness): the amended statement at the concrete scenario. -/
theorem editedSecondSemverCheckDiffWitness :
    didChecklistsChange cexC1Msg cexOldMsg = true
    ∧ getRequiredLabelChanges cexC1Body ⟨fun _ => none, []⟩
        = some ⟨[str "major", str "minor"], [str "patch"]⟩
    ∧ moreThanOneItemChecked (checklistItemsOfMessage cexC1Msg) = true :=
  editedSecondSemverCheckDiff cexC1Body cexC1Msg cexOldMsg ⟨fun _ => none, []⟩
    (str "major") (str "minor") (str "patch") (str "major") (str "minor") (str "patch")
    (by rfl) (by rfl) (by rfl) (by rfl) (by rfl) (by rfl)

/-- C10 (amended): `getRequiredLabelChanges` partitions the parsed autobot
checklist items by their checked flag — a name is in `labelsToAdd` exactly
when some parsed item with that resolved name is checked, in
`labelsToRemove` exactly when some such item is unchecked, and items whose
id resolves to no label are omitted from both — and when additionally the
parsed items have pairwise-distinct ids and distinct ids resolve to
distinct names, the two lists are disjoint.  (Without the distinct-ids
condition the lists can overlap, see the counterexample.) -/
theorem labelChangesPartition (msg : Str) (config : Config) (n : Str) :
    (n ∈ (requiredChangesOfMessage msg config).labelsToAdd
      ↔ ∃ it ∈ checklistItemsOfMessage msg, it.checked = true
          ∧ getLabelTextFromChecklistItem it config = some n)
    ∧ (n ∈ (requiredChangesOfMessage msg config).labelsToRemove
      ↔ ∃ it ∈ checklistItemsOfMessage msg, it.checked = false
          ∧ getLabelTextFromChecklistItem it config = some n)
    ∧ ((∀ it1 ∈ checklistItemsOfMessage msg, ∀ it2 ∈ checklistItemsOfMessage msg,
          it1.id ≠ it2.id → ∀ m, getLabelTextFromChecklistItem it1 config = some m
            → getLabelTextFromChecklistItem it2 config ≠ some m) →
        (checklistItemsOfMessage msg).Pairwise (fun a b => a.id ≠ b.id) →
        n ∈ (requiredChangesOfMessage msg config).labelsToAdd →
        n ∉ (requiredChangesOfMessage msg config).labelsToRemove) := by
  have hmemAdd : ∀ x, x ∈ (requiredChangesOfMessage msg config).labelsToAdd
      ↔ ∃ it ∈ checklistItemsOfMessage msg, it.checked = true
          ∧ getLabelTextFromChecklistItem it config = some x := by
    intro x
    simp only [requiredChangesOfMessage]
    rw [List.mem_filterMap]
    constructor
    · rintro ⟨it, hmem, hres⟩
      rw [List.mem_filter] at hmem
      exact ⟨it, hmem.1, hmem.2, hres⟩
    · rintro ⟨it, hmem, hc, hres⟩
      exact ⟨it, List.mem_filter.mpr ⟨hmem, hc⟩, hres⟩
  have hmemRem : ∀ x, x ∈ (requiredChangesOfMessage msg config).labelsToRemove
      ↔ ∃ it ∈ checklistItemsOfMessage msg, it.checked = false
          ∧ getLabelTextFromChecklistItem it config = some x := by
    intro x
    simp only [requiredChangesOfMessage]
    rw [List.mem_filterMap]
    constructor
    · rintro ⟨it, hmem, hres⟩
      rw [List.mem_filter] at hmem
      exact ⟨it, hmem.1, by simpa using hmem.2, hres⟩
    · rintro ⟨it, hmem, hc, hres⟩
      exact ⟨it, List.mem_filter.mpr ⟨hmem, by simp [hc]⟩, hres⟩
  refine ⟨hmemAdd n, hmemRem n, ?_⟩
  intro hinj hpw hadd hrem
  obtain ⟨i, hi, hic, hin⟩ := (hmemAdd n).mp hadd
  obtain ⟨j, hj, hjc, hjn⟩ := (hmemRem n).mp hrem
  by_cases hij : i = j
  · subst hij
    rw [hic] at hjc
    exact Bool.noConfusion hjc
  · have hsym : Symmetric (fun (a b : ChecklistItem) => a.id ≠ b.id) :=
      fun a b h he => h he.symm
    have hid : i.id ≠ j.id := List.Pairwise.forall hsym hpw hi hj hij
    exact hinj i hi j hj hid n hin hjn

/-- The C10 counterexample message: the same fingerprint appears once in
the semver checklist (checked) and once in the skip-release checklist
(unchecked). -/
def cexDupMsg : Str :=
  str "- [x] <!-- autobot/semver/major --> major\n- [ ] <!-- autobot/skipRelease/major --> major"

set_option maxRecDepth 100000 in
/-- C10 (counterexample): with the duplicate-fingerprint message, every
parsed item has the same id (so "distinct item ids resolve to distinct
label names" holds vacuously), yet `labelsToAdd` and `labelsToRemove` both
contain `major` — the claimed disjointness fails without a distinct-ids
premise. -/
theorem labelChangesNotDisjointCounterexample :
    (checklistItemsOfMessage cexDupMsg).map (fun it => (it.id, it.checked))
        = [(str "major", true), (str "major", false)]
    ∧ (requiredChangesOfMessage cexDupMsg ⟨fun _ => none, []⟩).labelsToAdd = [str "major"]
    ∧ (requiredChangesOfMessage cexDupMsg ⟨fun _ => none, []⟩).labelsToRemove = [str "major"]
    ∧ (requiredChangesOfMessage cexDupMsg ⟨fun _ => none, []⟩).labelsToAdd
        ∩ (requiredChangesOfMessage cexDupMsg ⟨fun _ => none, []⟩).labelsToRemove ≠ [] := by
  decide

/-- The C10 witness message: two semver items with distinct fingerprints,
one checked and one unchecked. -/
def msgC10W : Str :=
  str "- [x] <!-- autobot/semver/major --> major\n- [ ] <!-- autobot/semver/patch --> patch"

set_option maxRecDepth 100000 in
/-- C10 (witness): the partition at a concrete message with distinct item
ids: `major` is added and, by the disjointness part of the theorem, not
removed. -/
theorem labelChangesPartitionWitness :
    str "major" ∈ (requiredChangesOfMessage msgC10W ⟨fun _ => none, []⟩).labelsToAdd
    ∧ str "major" ∉ (requiredChangesOfMessage msgC10W ⟨fun _ => none, []⟩).labelsToRemove :=
  ⟨by decide,
   (labelChangesPartition msgC10W ⟨fun _ => none, []⟩ (str "major")).2.2
     (by decide) (by decide) (by decide)⟩
